import Mathlib

/-!
Verification of the DLClient deep-learning inference client
(src/Plugins/Client/DLClient.h).

The repository ships only the class declaration header `DLClient.h`: the
implementations of the declared methods (`readHdr`, `processImage`,
`updateOptions`, `setupConnection`, ...) and the protobuf schemas included
from `message.pb.h` are not part of the source tree.  Every definition that
embeds such a missing implementation is marked `Modelled from the spec:` and
follows the specification's wording; the data-model fields mirror the
member declarations of `DLClient.h` (names, element types and the
parallel-vector layout of the dynamic options).
-/

namespace DLClient

/-- Wire bytes are modelled as lists of natural numbers; writers that are
faithful to the wire emit values below 256. -/
abbrev Bytes := List Nat

/-- Modelled from the spec: the 4-byte unsigned big-endian length prefix
written in front of every serialized message body (spec 4.1, 6); the
writing routines declared in DLClient.h (sendInfoRequest,
sendInferenceRequest) have no implementation in the tree. -/
def writeNat32 (n : Nat) : Bytes :=
  [n / 2 ^ 24 % 256, n / 2 ^ 16 % 256, n / 2 ^ 8 % 256, n % 256]

/-- Helper for `writeVarint`: structural recursion on a fuel argument so
that the definition reduces inside the kernel. -/
def writeVarintAux : Nat → Nat → Bytes
  | 0, n => [n % 128]
  | fuel + 1, n =>
    if n < 128 then [n] else (n % 128 + 128) :: writeVarintAux fuel (n / 128)

/-- Modelled from the spec: protobuf-style base-128 varint encoding for the
integer fields inside serialized bodies (`message.pb.h` is generated code
that is not in the tree). -/
def writeVarint (n : Nat) : Bytes := writeVarintAux n n

/-- Reader inverting `writeVarint`. -/
def readVarint : Bytes → Option (Nat × Bytes)
  | [] => none
  | b :: rest =>
    if b < 128 then some (b, rest)
    else
      match readVarint rest with
      | some (n, rest2) => some (n * 128 + (b - 128), rest2)
      | none => none

theorem readVarint_writeVarintAux (fuel : Nat) :
    ∀ n, n ≤ fuel → ∀ rest : Bytes,
      readVarint (writeVarintAux fuel n ++ rest) = some (n, rest) := by
  induction fuel with
  | zero =>
    intro n hn rest
    have : n = 0 := Nat.le_zero.mp hn
    subst this
    simp [writeVarintAux, readVarint]
  | succ fuel ih =>
    intro n hn rest
    by_cases h : n < 128
    · simp [writeVarintAux, h, readVarint]
    · have hd : n / 128 ≤ fuel := by omega
      have hb : ¬ (n % 128 + 128 < 128) := by omega
      simp only [writeVarintAux, if_neg h, List.cons_append, readVarint,
        if_neg hb, ih (n / 128) hd rest]
      have : n / 128 * 128 + n % 128 = n := by omega
      simp [this]

theorem readVarint_writeVarint (n : Nat) (rest : Bytes) :
    readVarint (writeVarint n ++ rest) = some (n, rest) :=
  readVarint_writeVarintAux n n (Nat.le_refl n) rest

/-- Boolean field on the wire: one byte, 0 or 1. -/
def writeBool (b : Bool) : Bytes := [if b then 1 else 0]

def readBool : Bytes → Option (Bool × Bytes)
  | 0 :: rest => some (false, rest)
  | 1 :: rest => some (true, rest)
  | _ => none

theorem readBool_writeBool (b : Bool) (rest : Bytes) :
    readBool (writeBool b ++ rest) = some (b, rest) := by
  cases b <;> rfl

/-- Signed integer field: a sign byte followed by the magnitude varint. -/
def writeInt (i : Int) : Bytes :=
  (if i < 0 then 1 else 0) :: writeVarint i.natAbs

def readInt (bs : Bytes) : Option (Int × Bytes) :=
  match bs with
  | 0 :: rest =>
    match readVarint rest with
    | some (n, rest2) => some ((n : Int), rest2)
    | none => none
  | 1 :: rest =>
    match readVarint rest with
    | some (n, rest2) => some (-(n : Int), rest2)
    | none => none
  | _ => none

theorem readInt_writeInt (i : Int) (rest : Bytes) :
    readInt (writeInt i ++ rest) = some (i, rest) := by
  by_cases h : i < 0
  · simp only [writeInt, if_pos h, List.cons_append]
    simp only [readInt, readVarint_writeVarint]
    have : -(i.natAbs : Int) = i := by omega
    rw [this]
  · simp only [writeInt, if_neg h, List.cons_append]
    simp only [readInt, readVarint_writeVarint]
    have : (i.natAbs : Int) = i := by omega
    rw [this]

/-- Rational field standing in for the C++ float fields: numerator then
denominator (no arithmetic is performed on option values anywhere in the
modelled client, so exact rationals are a faithful carrier). -/
def writeRat (q : Rat) : Bytes := writeInt q.num ++ writeVarint q.den

def readRat (bs : Bytes) : Option (Rat × Bytes) :=
  match readInt bs with
  | some (n, bs1) =>
    match readVarint bs1 with
    | some (d, bs2) => some (mkRat n d, bs2)
    | none => none
  | none => none

theorem readRat_writeRat (q : Rat) (rest : Bytes) :
    readRat (writeRat q ++ rest) = some (q, rest) := by
  simp [writeRat, readRat, List.append_assoc, readInt_writeInt,
    readVarint_writeVarint, Rat.mkRat_self]

/-- Character on the wire: its code point as a varint. -/
def writeChar (c : Char) : Bytes := writeVarint c.toNat

def readChar (bs : Bytes) : Option (Char × Bytes) :=
  match readVarint bs with
  | some (n, rest) => some (Char.ofNat n, rest)
  | none => none

theorem readChar_writeChar (c : Char) (rest : Bytes) :
    readChar (writeChar c ++ rest) = some (c, rest) := by
  simp [writeChar, readChar, readVarint_writeVarint, Char.ofNat_toNat]

/-- Reads exactly `k` occurrences of a field. -/
def readCount (rd : Bytes → Option (α × Bytes)) : Nat → Bytes → Option (List α × Bytes)
  | 0, bs => some ([], bs)
  | k + 1, bs =>
    match rd bs with
    | some (x, bs1) =>
      match readCount rd k bs1 with
      | some (xs, bs2) => some (x :: xs, bs2)
      | none => none
    | none => none

/-- Repeated field: element count as a varint, then the elements. -/
def writeList (w : α → Bytes) (xs : List α) : Bytes :=
  writeVarint xs.length ++ xs.foldr (fun x acc => w x ++ acc) []

def readList (rd : Bytes → Option (α × Bytes)) (bs : Bytes) :
    Option (List α × Bytes) :=
  match readVarint bs with
  | some (k, bs1) => readCount rd k bs1
  | none => none

theorem readCount_elems (rd : Bytes → Option (α × Bytes)) (w : α → Bytes)
    (xs : List α) (hw : ∀ x ∈ xs, ∀ rest : Bytes, rd (w x ++ rest) = some (x, rest))
    (rest : Bytes) :
    readCount rd xs.length (xs.foldr (fun x acc => w x ++ acc) [] ++ rest) =
      some (xs, rest) := by
  induction xs with
  | nil => simp [readCount]
  | cons x xs ih =>
    have hx := hw x (by simp)
    simp only [List.foldr_cons, List.length_cons, readCount, List.append_assoc, hx]
    rw [ih (fun y hy => hw y (by simp [hy]))]

theorem readList_writeList (rd : Bytes → Option (α × Bytes)) (w : α → Bytes)
    (xs : List α) (hw : ∀ x ∈ xs, ∀ rest : Bytes, rd (w x ++ rest) = some (x, rest))
    (rest : Bytes) :
    readList rd (writeList w xs ++ rest) = some (xs, rest) := by
  simp only [writeList, readList, List.append_assoc, readVarint_writeVarint]
  exact readCount_elems rd w xs hw rest

/-- String field: character count, then each character. -/
def writeString (s : String) : Bytes := writeList writeChar s.toList

def readString (bs : Bytes) : Option (String × Bytes) :=
  match readList readChar bs with
  | some (cs, rest) => some (String.mk cs, rest)
  | none => none

theorem readString_writeString (s : String) (rest : Bytes) :
    readString (writeString s ++ rest) = some (s, rest) := by
  simp only [writeString, readString,
    readList_writeList readChar writeChar s.toList (fun c _ => readChar_writeChar c) rest]
  cases s
  rfl

/-- Modelled from the spec: the declared type of one dynamic parameter
(spec 3, ModelDescriptor: type is one of bool, int, float, string). -/
inductive ParamType where
  | boolT
  | intT
  | floatT
  | stringT
deriving DecidableEq

/-- One declared parameter of a model: a name and a type (spec 3). -/
structure Param where
  name : String
  ptype : ParamType
deriving DecidableEq

/-- Modelled from the spec: a ModelDescriptor as advertised by the server
(spec 3); stands in for the protobuf class `dlserver::Model` used by the
`_serverModels` member of DLClient.h, whose schema is not in the tree. -/
structure Model where
  name : String
  numInputs : Nat
  inputNames : List String
  params : List Param
deriving DecidableEq

/-- An opaque multi-channel raster with known dimensions (spec 1, 3);
pixel values are carried as exact rationals standing in for C++ floats
(no arithmetic is ever performed on them in the modelled client). -/
structure Image where
  width : Nat
  height : Nat
  channels : Nat
  pixels : List Rat
deriving DecidableEq

/-- Bound option values grouped by type, as placed into an inference
request body (spec 6). -/
structure BoundOptions where
  boolOpts : List (String × Bool)
  intOpts : List (String × Int)
  floatOpts : List (String × Rat)
  stringOpts : List (String × String)
deriving DecidableEq

/-- Modelled from the spec: the structured message bodies of the wire
protocol (spec 6): info request and response, inference request and
response.  The protobuf classes of `message.pb.h` are not in the tree. -/
inductive Msg where
  | infoRequest
  | infoResponse (models : List Model)
  | inferenceRequest (modelName : String) (images : List Image) (opts : BoundOptions)
  | inferenceResponse (payload : Image ⊕ String)
deriving DecidableEq

def writeParamType : ParamType → Bytes
  | .boolT => [0]
  | .intT => [1]
  | .floatT => [2]
  | .stringT => [3]

def readParamType : Bytes → Option (ParamType × Bytes)
  | 0 :: rest => some (.boolT, rest)
  | 1 :: rest => some (.intT, rest)
  | 2 :: rest => some (.floatT, rest)
  | 3 :: rest => some (.stringT, rest)
  | _ => none

theorem readParamType_writeParamType (t : ParamType) (rest : Bytes) :
    readParamType (writeParamType t ++ rest) = some (t, rest) := by
  cases t <;> rfl

def writeParam (p : Param) : Bytes := writeString p.name ++ writeParamType p.ptype

def readParam (bs : Bytes) : Option (Param × Bytes) :=
  match readString bs with
  | some (n, bs1) =>
    match readParamType bs1 with
    | some (t, bs2) => some (⟨n, t⟩, bs2)
    | none => none
  | none => none

theorem readParam_writeParam (p : Param) (rest : Bytes) :
    readParam (writeParam p ++ rest) = some (p, rest) := by
  simp [writeParam, readParam, List.append_assoc, readString_writeString,
    readParamType_writeParamType]

def writeModel (m : Model) : Bytes :=
  writeString m.name ++ writeVarint m.numInputs ++
    writeList writeString m.inputNames ++ writeList writeParam m.params

def readModel (bs : Bytes) : Option (Model × Bytes) :=
  match readString bs with
  | some (n, bs1) =>
    match readVarint bs1 with
    | some (k, bs2) =>
      match readList readString bs2 with
      | some (ins, bs3) =>
        match readList readParam bs3 with
        | some (ps, bs4) => some (⟨n, k, ins, ps⟩, bs4)
        | none => none
      | none => none
    | none => none
  | none => none

theorem readModel_writeModel (m : Model) (rest : Bytes) :
    readModel (writeModel m ++ rest) = some (m, rest) := by
  simp [writeModel, readModel, List.append_assoc, readString_writeString,
    readVarint_writeVarint,
    readList_writeList readString writeString m.inputNames
      (fun s _ => readString_writeString s),
    readList_writeList readParam writeParam m.params
      (fun p _ => readParam_writeParam p)]

def writeImage (img : Image) : Bytes :=
  writeVarint img.width ++ writeVarint img.height ++ writeVarint img.channels ++
    writeList writeRat img.pixels

def readImage (bs : Bytes) : Option (Image × Bytes) :=
  match readVarint bs with
  | some (w, bs1) =>
    match readVarint bs1 with
    | some (h, bs2) =>
      match readVarint bs2 with
      | some (c, bs3) =>
        match readList readRat bs3 with
        | some (px, bs4) => some (⟨w, h, c, px⟩, bs4)
        | none => none
      | none => none
    | none => none
  | none => none

theorem readImage_writeImage (img : Image) (rest : Bytes) :
    readImage (writeImage img ++ rest) = some (img, rest) := by
  simp [writeImage, readImage, List.append_assoc, readVarint_writeVarint,
    readList_writeList readRat writeRat img.pixels (fun q _ => readRat_writeRat q)]

def writeStrOf (w : α → Bytes) (p : String × α) : Bytes :=
  writeString p.1 ++ w p.2

def readStrOf (rd : Bytes → Option (α × Bytes)) (bs : Bytes) :
    Option ((String × α) × Bytes) :=
  match readString bs with
  | some (n, bs1) =>
    match rd bs1 with
    | some (v, bs2) => some ((n, v), bs2)
    | none => none
  | none => none

theorem readStrOf_writeStrOf (rd : Bytes → Option (α × Bytes)) (w : α → Bytes)
    (hw : ∀ v : α, ∀ rest : Bytes, rd (w v ++ rest) = some (v, rest))
    (p : String × α) (rest : Bytes) :
    readStrOf rd (writeStrOf w p ++ rest) = some (p, rest) := by
  simp [writeStrOf, readStrOf, List.append_assoc, readString_writeString, hw]

def writeBoundOptions (o : BoundOptions) : Bytes :=
  writeList (writeStrOf writeBool) o.boolOpts ++
    writeList (writeStrOf writeInt) o.intOpts ++
    writeList (writeStrOf writeRat) o.floatOpts ++
    writeList (writeStrOf writeString) o.stringOpts

def readBoundOptions (bs : Bytes) : Option (BoundOptions × Bytes) :=
  match readList (readStrOf readBool) bs with
  | some (bo, bs1) =>
    match readList (readStrOf readInt) bs1 with
    | some (io, bs2) =>
      match readList (readStrOf readRat) bs2 with
      | some (fo, bs3) =>
        match readList (readStrOf readString) bs3 with
        | some (so, bs4) => some (⟨bo, io, fo, so⟩, bs4)
        | none => none
      | none => none
    | none => none
  | none => none

theorem readBoundOptions_writeBoundOptions (o : BoundOptions) (rest : Bytes) :
    readBoundOptions (writeBoundOptions o ++ rest) = some (o, rest) := by
  simp [writeBoundOptions, readBoundOptions, List.append_assoc,
    readList_writeList (readStrOf readBool) (writeStrOf writeBool) o.boolOpts
      (fun p _ => readStrOf_writeStrOf readBool writeBool readBool_writeBool p),
    readList_writeList (readStrOf readInt) (writeStrOf writeInt) o.intOpts
      (fun p _ => readStrOf_writeStrOf readInt writeInt readInt_writeInt p),
    readList_writeList (readStrOf readRat) (writeStrOf writeRat) o.floatOpts
      (fun p _ => readStrOf_writeStrOf readRat writeRat readRat_writeRat p),
    readList_writeList (readStrOf readString) (writeStrOf writeString) o.stringOpts
      (fun p _ => readStrOf_writeStrOf readString writeString readString_writeString p)]

/-- Modelled from the spec: serialization of a structured message body.
The leading byte plays the role of protobuf field numbering: the message
kinds are distinguished structurally by the body schema, never by the
length prefix (spec 6). -/
def serializeMsg : Msg → Bytes
  | .infoRequest => [0]
  | .infoResponse models => 1 :: writeList writeModel models
  | .inferenceRequest name images opts =>
      2 :: (writeString name ++ writeList writeImage images ++ writeBoundOptions opts)
  | .inferenceResponse (.inl img) => 3 :: 1 :: writeImage img
  | .inferenceResponse (.inr err) => 3 :: 0 :: writeString err

/-- Structural parse of a message body, inverting `serializeMsg`. -/
def parseMsg : Bytes → Option (Msg × Bytes)
  | 0 :: rest => some (.infoRequest, rest)
  | 1 :: rest =>
    match readList readModel rest with
    | some (ms, bs1) => some (.infoResponse ms, bs1)
    | none => none
  | 2 :: rest =>
    match readString rest with
    | some (n, bs1) =>
      match readList readImage bs1 with
      | some (imgs, bs2) =>
        match readBoundOptions bs2 with
        | some (o, bs3) => some (.inferenceRequest n imgs o, bs3)
        | none => none
      | none => none
    | none => none
  | 3 :: 1 :: rest =>
    match readImage rest with
    | some (img, bs1) => some (.inferenceResponse (.inl img), bs1)
    | none => none
  | 3 :: 0 :: rest =>
    match readString rest with
    | some (err, bs1) => some (.inferenceResponse (.inr err), bs1)
    | none => none
  | _ => none

theorem parseMsg_serializeMsg (m : Msg) (rest : Bytes) :
    parseMsg (serializeMsg m ++ rest) = some (m, rest) := by
  match m with
  | .infoRequest => rfl
  | .infoResponse models =>
    simp [serializeMsg, parseMsg,
      readList_writeList readModel writeModel models (fun x _ => readModel_writeModel x)]
  | .inferenceRequest name images opts =>
    simp [serializeMsg, parseMsg, List.append_assoc, readString_writeString,
      readList_writeList readImage writeImage images (fun x _ => readImage_writeImage x),
      readBoundOptions_writeBoundOptions]
  | .inferenceResponse (.inl img) =>
    simp [serializeMsg, parseMsg, readImage_writeImage]
  | .inferenceResponse (.inr err) =>
    simp [serializeMsg, parseMsg, readString_writeString]

/-- Errors of the wire codec (spec 4.1, 7). -/
inductive CodecError where
  | framingError
  | decodeError
deriving DecidableEq

/-- Modelled from the spec: `encode(message)` produces the 4-byte length
prefix followed by the serialized body (spec 4.1). -/
def encode (m : Msg) : Bytes :=
  writeNat32 (serializeMsg m).length ++ serializeMsg m

/-- Modelled from the spec: `decodeHeader(buffer)` reads exactly the 4-byte
prefix and returns the declared body length; a malformed or truncated
prefix is a FramingError (spec 4.1).  Embeds the missing implementation of
`DLClient::readHdr` (DLClient.h line 76). -/
def decodeHeader : Bytes → Except CodecError Nat
  | b0 :: b1 :: b2 :: b3 :: _ => .ok (((b0 * 256 + b1) * 256 + b2) * 256 + b3)
  | _ => .error CodecError.framingError

/-- Modelled from the spec: `decodeBody(bytes, length)` parses exactly
`length` bytes into a structured message; a short buffer is a FramingError
and a body failing the schema parse is a DecodeError, so no partial message
is ever returned (spec 4.1). -/
def decodeBody (bs : Bytes) (len : Nat) : Except CodecError Msg :=
  if bs.length < len then .error CodecError.framingError
  else
    match parseMsg (bs.take len) with
    | some (m, []) => .ok m
    | _ => .error CodecError.decodeError

/-- C1: for every valid message body (one whose serialized form fits the
4-byte length prefix), encoding it and then decoding the body portion of
the encoded bytes with the declared length reconstructs an equal body: the
header declares exactly the body length, and `decodeBody` returns the
original message, never a partial one. -/
theorem decodeBody_encode_roundTrip (m : Msg)
    (hlen : (serializeMsg m).length < 2 ^ 32) :
    decodeHeader (encode m) = .ok (serializeMsg m).length ∧
    decodeBody ((encode m).drop 4) (serializeMsg m).length = .ok m := by
  constructor
  · simp only [encode, writeNat32, List.cons_append, decodeHeader]
    congr 1
    omega
  · have hdrop : (encode m).drop 4 = serializeMsg m := by
      simp [encode, writeNat32]
    rw [hdrop]
    unfold decodeBody
    rw [if_neg (lt_irrefl _), List.take_length]
    have hp := parseMsg_serializeMsg m []
    rw [List.append_nil] at hp
    rw [hp]

/-- Witness for C1 at the capability-exchange scenario of spec 8: one model
with one input and one float parameter named strength. -/
theorem decodeBody_encode_roundTrip_spot :
    (serializeMsg (Msg.infoResponse [⟨"blur", 1, ["src"], [⟨"strength", ParamType.floatT⟩]⟩])).length < 2 ^ 32 ∧
    (decodeHeader (encode (Msg.infoResponse [⟨"blur", 1, ["src"], [⟨"strength", ParamType.floatT⟩]⟩])) =
        .ok (serializeMsg (Msg.infoResponse [⟨"blur", 1, ["src"], [⟨"strength", ParamType.floatT⟩]⟩])).length ∧
      decodeBody ((encode (Msg.infoResponse [⟨"blur", 1, ["src"], [⟨"strength", ParamType.floatT⟩]⟩])).drop 4)
          (serializeMsg (Msg.infoResponse [⟨"blur", 1, ["src"], [⟨"strength", ParamType.floatT⟩]⟩])).length =
        .ok (Msg.infoResponse [⟨"blur", 1, ["src"], [⟨"strength", ParamType.floatT⟩]⟩])) :=
  ⟨by decide, decodeBody_encode_roundTrip _ (by decide)⟩

/-- C8: `decodeHeader` on an input buffer of fewer than 4 bytes fails with
FramingError; being a total function of the buffer it returns on every
input rather than blocking. -/
theorem decodeHeader_short_framingError (buf : Bytes) (h : buf.length < 4) :
    decodeHeader buf = .error CodecError.framingError := by
  match buf with
  | [] => rfl
  | [_] => rfl
  | [_, _] => rfl
  | [_, _, _] => rfl
  | _ :: _ :: _ :: _ :: _ =>
    simp only [List.length_cons] at h
    omega

/-- Witness for C8 on a concrete 3-byte buffer. -/
theorem decodeHeader_short_framingError_spot :
    ([1, 2, 3] : Bytes).length < 4 ∧
      decodeHeader [1, 2, 3] = .error CodecError.framingError :=
  ⟨by decide, decodeHeader_short_framingError [1, 2, 3] (by decide)⟩

/-- Error taxonomy of the client (spec 7, 4.5). -/
inductive DLError where
  | validationError
  | connectionError
  | framingError
  | decodeError
  | inferenceError (msg : String)
  | inputMismatchError
deriving DecidableEq

/-- Client state, mirroring the private data members of class DLClient
(DLClient.h lines 36-68): the cached result raster, the first-time dirty
flag, the connection fields with their validity flags, the selected model
index (a non-negative vector index, hence Nat), the cached server model
list, and the eight parallel vectors of dynamic option values and names.
The header stores dynamic bool values as a vector of int, which is kept
here; float vectors are carried as exact rationals. -/
structure DLClientState where
  result : Image
  firstTime : Bool
  isConnected : Bool
  host : String
  hostIsValid : Bool
  port : Int
  portIsValid : Bool
  chosenModel : Nat
  modelSelected : Bool
  serverModels : List Model
  dynamicBoolValues : List Int
  dynamicIntValues : List Int
  dynamicFloatValues : List Rat
  dynamicStringValues : List String
  dynamicBoolNames : List String
  dynamicIntNames : List String
  dynamicFloatNames : List String
  dynamicStringNames : List String
deriving DecidableEq

/-- The declared parameters of a model that have the given type, in
declaration order (spec 3: each type-mapping is ordered identically to the
declared-parameter order restricted to that type). -/
def paramsOfType (m : Model) (t : ParamType) : List Param :=
  m.params.filter fun p => p.ptype == t

/-- Number of declared parameters of the given type. -/
def countParams (m : Model) (t : ParamType) : Nat :=
  (paramsOfType m t).length

/-- The ModelDescriptor the current selection refers to, when a model has
been selected and the index is in range of the cached list. -/
def selectedModel (s : DLClientState) : Option Model :=
  if s.modelSelected then s.serverModels.get? s.chosenModel else none

/-- Modelled from the spec: `DLClient::updateOptions(dlserver::Model*)`
(DLClient.h line 84) rebuilds the four typed name and value vectors from
the model's declared parameters, assigning every value its type default:
bools (stored as int) get 0 for false, ints 0, floats 0, strings the empty
string (spec 4.4). -/
def updateOptions (s : DLClientState) (m : Model) : DLClientState :=
  { s with
    dynamicBoolNames := (paramsOfType m ParamType.boolT).map Param.name
    dynamicBoolValues := (paramsOfType m ParamType.boolT).map fun _ => (0 : Int)
    dynamicIntNames := (paramsOfType m ParamType.intT).map Param.name
    dynamicIntValues := (paramsOfType m ParamType.intT).map fun _ => (0 : Int)
    dynamicFloatNames := (paramsOfType m ParamType.floatT).map Param.name
    dynamicFloatValues := (paramsOfType m ParamType.floatT).map fun _ => (0 : Rat)
    dynamicStringNames := (paramsOfType m ParamType.stringT).map Param.name
    dynamicStringValues := (paramsOfType m ParamType.stringT).map fun _ => "" }

/-- Modelled from the spec: the model-selection path of
`DLClient::knob_changed` (DLClient.h line 121).  Selecting the index that
is already selected is a no-op preserving edited values; selecting a
different index into the fetched list records the choice and rebuilds all
options to type defaults via `updateOptions`; an index outside the list
leaves the state unchanged (spec 4.4). -/
def selectModel (s : DLClientState) (idx : Nat) : DLClientState :=
  if s.modelSelected ∧ s.chosenModel = idx then s
  else
    match s.serverModels.get? idx with
    | some m => updateOptions { s with chosenModel := idx, modelSelected := true } m
    | none => s

/-- Modelled from the spec: `DLClient::getNumOfBools` (DLClient.h line
130) returns the entry count of the bool value vector. -/
def getNumOfBools (s : DLClientState) : Nat := s.dynamicBoolValues.length

/-- Modelled from the spec: `DLClient::getNumOfInts` (DLClient.h line 129). -/
def getNumOfInts (s : DLClientState) : Nat := s.dynamicIntValues.length

/-- Modelled from the spec: `DLClient::getNumOfFloats` (DLClient.h line 128). -/
def getNumOfFloats (s : DLClientState) : Nat := s.dynamicFloatValues.length

/-- Modelled from the spec: `DLClient::getNumOfStrings` (DLClient.h line 131). -/
def getNumOfStrings (s : DLClientState) : Nat := s.dynamicStringValues.length

/-- Modelled from the spec: `DLClient::getDynamicBoolName` (DLClient.h
line 133), the name stored at an index of the bool name vector. -/
def getDynamicBoolName (s : DLClientState) (idx : Nat) : Option String :=
  s.dynamicBoolNames.get? idx

/-- Modelled from the spec: `DLClient::getDynamicFloatName` (DLClient.h line 134). -/
def getDynamicFloatName (s : DLClientState) (idx : Nat) : Option String :=
  s.dynamicFloatNames.get? idx

/-- Modelled from the spec: `DLClient::getDynamicIntName` (DLClient.h line 135). -/
def getDynamicIntName (s : DLClientState) (idx : Nat) : Option String :=
  s.dynamicIntNames.get? idx

/-- Modelled from the spec: `DLClient::getDynamicStringName` (DLClient.h line 136). -/
def getDynamicStringName (s : DLClientState) (idx : Nat) : Option String :=
  s.dynamicStringNames.get? idx

/-- Modelled from the spec: `DLClient::getDynamicFloatValue` (DLClient.h line 138). -/
def getDynamicFloatValue (s : DLClientState) (idx : Nat) : Option Rat :=
  s.dynamicFloatValues.get? idx

/-- Modelled from the spec: `DLClient::getDynamicIntValue` (DLClient.h line 139). -/
def getDynamicIntValue (s : DLClientState) (idx : Nat) : Option Int :=
  s.dynamicIntValues.get? idx

/-- Modelled from the spec: `DLClient::getDynamicBoolValue` (DLClient.h line 140). -/
def getDynamicBoolValue (s : DLClientState) (idx : Nat) : Option Int :=
  s.dynamicBoolValues.get? idx

/-- Modelled from the spec: `DLClient::getDynamicStringValue` (DLClient.h line 141). -/
def getDynamicStringValue (s : DLClientState) (idx : Nat) : Option String :=
  s.dynamicStringValues.get? idx

/-- Modelled from the spec: host-driven edit of one dynamic bool option,
keyed by index within the type (spec 4.4); an out-of-range index leaves
the vector unchanged. -/
def setDynamicBoolValue (s : DLClientState) (idx : Nat) (v : Int) : DLClientState :=
  { s with dynamicBoolValues := s.dynamicBoolValues.set idx v }

/-- Modelled from the spec: host-driven edit of one dynamic int option. -/
def setDynamicIntValue (s : DLClientState) (idx : Nat) (v : Int) : DLClientState :=
  { s with dynamicIntValues := s.dynamicIntValues.set idx v }

/-- Modelled from the spec: host-driven edit of one dynamic float option. -/
def setDynamicFloatValue (s : DLClientState) (idx : Nat) (v : Rat) : DLClientState :=
  { s with dynamicFloatValues := s.dynamicFloatValues.set idx v }

/-- Modelled from the spec: host-driven edit of one dynamic string option. -/
def setDynamicStringValue (s : DLClientState) (idx : Nat) (v : String) : DLClientState :=
  { s with dynamicStringValues := s.dynamicStringValues.set idx v }

/-- The operations of the Dynamic Option Model (spec 4.4): selecting a
model and editing one value of each type. -/
inductive OptionOp where
  | select (idx : Nat)
  | setBool (idx : Nat) (v : Int)
  | setInt (idx : Nat) (v : Int)
  | setFloat (idx : Nat) (v : Rat)
  | setString (idx : Nat) (v : String)

def applyOptionOp (s : DLClientState) : OptionOp → DLClientState
  | .select idx => selectModel s idx
  | .setBool idx v => setDynamicBoolValue s idx v
  | .setInt idx v => setDynamicIntValue s idx v
  | .setFloat idx v => setDynamicFloatValue s idx v
  | .setString idx v => setDynamicStringValue s idx v

/-- Modelled from the spec: the observable outcome of the single blocking
request/response exchange of one inference call (spec 4.5, 7).  The server
and the socket library are outside the tree, so the exchange outcome is an
oracle parameter of the transition functions. -/
inductive ExchangeOutcome where
  | connFail
  | frameFail
  | decodeFail
  | serverFail (msg : String)
  | ok (img : Image)
deriving DecidableEq

/-- Modelled from the spec: the outcome of one capability-exchange
request/response (spec 4.3). -/
inductive InfoOutcome where
  | connFail
  | decodeFail
  | ok (models : List Model)
deriving DecidableEq

/-- Modelled from the spec: `fetchModels` — the `sendInfoRequest` /
`readInfoResponse` pair declared in DLClient.h lines 77-79 (spec 4.3).
On success the cached model list is replaced wholesale; on a connection or
decode failure an error is returned, the connection is invalidated, and
the cached list is left untouched. -/
def fetchModels (s : DLClientState) (net : InfoOutcome) :
    Except DLError (List Model) × DLClientState :=
  match net with
  | .connFail => (.error DLError.connectionError, { s with isConnected := false })
  | .decodeFail => (.error DLError.decodeError, { s with isConnected := false })
  | .ok ms => (.ok ms, { s with serverModels := ms, isConnected := true })

/-- Modelled from the spec: `runInference` — `DLClient::processImage` and
the `sendInferenceRequest` / `readInferenceResponse` pair (DLClient.h
lines 75, 80-82; spec 4.5).  Returns the call's result, the successor
state, and the number of network operations performed.  The input-count
validation happens before any I/O; connection, framing and decode failures
invalidate the connection and retain the previous result; a
server-reported failure leaves the connection usable; only a successfully
decoded response replaces the cached result raster. -/
def runInference (s : DLClientState) (images : List Image)
    (net : ExchangeOutcome) : Except DLError Image × DLClientState × Nat :=
  match selectedModel s with
  | none => (.error DLError.validationError, s, 0)
  | some m =>
    if images.length ≠ m.numInputs then
      (.error DLError.inputMismatchError, s, 0)
    else
      match net with
      | .connFail =>
          (.error DLError.connectionError, { s with isConnected := false }, 1)
      | .frameFail =>
          (.error DLError.framingError, { s with isConnected := false }, 1)
      | .decodeFail =>
          (.error DLError.decodeError, { s with isConnected := false }, 1)
      | .serverFail msg => (.error (DLError.inferenceError msg), s, 1)
      | .ok img =>
          (.ok img, { s with result := img, isConnected := true }, 1)

/-- Modelled from the spec: validity of the configured port, checked
before any socket call (spec 4.2). -/
def validPort (port : Int) : Bool := 0 < port && port < 65536

/-- Modelled from the spec: validity of the configured host string,
checked before any socket call (spec 4.2); the header tracks it in the
`_hostIsValid` member (DLClient.h line 45). -/
def validHost (host : String) : Bool := !host.isEmpty

/-- Modelled from the spec: `ensureConnected` — `DLClient::setupConnection`
and `connectLoop` (DLClient.h lines 72-73; spec 4.2).  Returns the result,
the successor state, and the number of socket operations attempted.  An
existing connection to the same host and port short-circuits successfully
with no socket operation; an invalid host or out-of-range port
short-circuits with a validation error before any socket call; otherwise
a connection is attempted, succeeding or failing per the oracle. -/
def ensureConnected (s : DLClientState) (host : String) (port : Int)
    (net : Bool) : Except DLError Bool × DLClientState × Nat :=
  if s.isConnected ∧ s.host = host ∧ s.port = port then (.ok true, s, 0)
  else if validHost host && validPort port then
    if net then
      (.ok true,
        { s with host := host, port := port, hostIsValid := true,
                 portIsValid := true, isConnected := true }, 1)
    else
      (.error DLError.connectionError,
        { s with host := host, port := port, hostIsValid := true,
                 portIsValid := true, isConnected := false }, 1)
  else
    (.error DLError.validationError,
      { s with host := host, port := port, hostIsValid := validHost host,
               portIsValid := validPort port, isConnected := false }, 0)

/-- Modelled from the spec: one host compute call — `DLClient::engine`
(DLClient.h line 114) with the `_firstTime` dirty check (DLClient.h line
42) re-evaluated under `_lock` (DLClient.h line 51; spec 4.6, 5).  The
first caller of a frame performs the inference exchange and caches the
result; a failed exchange leaves the dirty flag set so the next
invocation retries; later callers of the unchanged frame serve the cached
raster without touching the network.  Returns the successor state, the
number of exchanges this call performed, and the raster this caller
observes. -/
def engineCall (s : DLClientState) (images : List Image)
    (net : ExchangeOutcome) : DLClientState × Nat × Image :=
  if s.firstTime then
    match runInference s images net with
    | (.ok _, s1, k) => ({ s1 with firstTime := false }, k, s1.result)
    | (.error _, s1, k) => (s1, k, s1.result)
  else (s, 0, s.result)

/-- Modelled from the spec: N simultaneous compute calls for the same
frame serialize behind the mutual-exclusion lock (spec 5), so they are a
sequence of `engineCall` steps over the shared state; the component list
collects the raster each caller observes, the middle component the total
number of network exchanges. -/
def engineCalls (s : DLClientState) (images : List Image)
    (net : ExchangeOutcome) : Nat → DLClientState × Nat × List Image
  | 0 => (s, 0, [])
  | n + 1 =>
    let r1 := engineCall s images net
    let r2 := engineCalls r1.1 images net n
    (r2.1, r1.2.1 + r2.2.1, r1.2.2 :: r2.2.2)

/-- Every operation of the client that the host can trigger, each with its
oracle outcome where the network is involved (spec 4.2-4.6). -/
inductive ClientOp where
  | opt (op : OptionOp)
  | fetch (net : InfoOutcome)
  | infer (images : List Image) (net : ExchangeOutcome)
  | connect (host : String) (port : Int) (net : Bool)
  | compute (images : List Image) (net : ExchangeOutcome)

def applyClientOp (s : DLClientState) : ClientOp → DLClientState
  | .opt op => applyOptionOp s op
  | .fetch net => (fetchModels s net).2
  | .infer images net => (runInference s images net).2.1
  | .connect host port net => (ensureConnected s host port net).2.1
  | .compute images net => (engineCall s images net).1

/-- C3's invariant: each type-mapping of the DynamicOptionSet has exactly
as many entries as the selected descriptor declares parameters of that
type (spec 4.4, 3). -/
def optionCountsOk (s : DLClientState) : Bool :=
  match selectedModel s with
  | some m =>
    (s.dynamicBoolValues.length == countParams m ParamType.boolT) &&
    (s.dynamicIntValues.length == countParams m ParamType.intT) &&
    (s.dynamicFloatValues.length == countParams m ParamType.floatT) &&
    (s.dynamicStringValues.length == countParams m ParamType.stringT)
  | none => true

/-- C10's invariant: for each of the four option types the name vector and
the value vector of DLClient.h lines 59-66 run in parallel. -/
def parallelVectorsOk (s : DLClientState) : Bool :=
  (s.dynamicBoolNames.length == s.dynamicBoolValues.length) &&
  (s.dynamicIntNames.length == s.dynamicIntValues.length) &&
  (s.dynamicFloatNames.length == s.dynamicFloatValues.length) &&
  (s.dynamicStringNames.length == s.dynamicStringValues.length)

/-- The one-model scenario of spec 8: one input and one float parameter
named strength. -/
def demoModel : Model :=
  ⟨"blur", 1, ["src"], [⟨"strength", ParamType.floatT⟩, ⟨"iters", ParamType.intT⟩]⟩

/-- A fresh client state that has fetched `demoModel` but selected
nothing. -/
def demoState : DLClientState where
  result := ⟨0, 0, 0, []⟩
  firstTime := true
  isConnected := false
  host := "localhost"
  hostIsValid := true
  port := 55555
  portIsValid := true
  chosenModel := 0
  modelSelected := false
  serverModels := [demoModel]
  dynamicBoolValues := []
  dynamicIntValues := []
  dynamicFloatValues := []
  dynamicStringValues := []
  dynamicBoolNames := []
  dynamicIntNames := []
  dynamicFloatNames := []
  dynamicStringNames := []

/-- `demoState` after selecting model 0. -/
def demoSelected : DLClientState := selectModel demoState 0

/-- A concrete 2 by 2 single-channel raster. -/
def demoImage : Image := ⟨2, 2, 1, [0, 1, 1, 0]⟩

/-- C2: selecting the currently selected model index again leaves the
whole client state — in particular every current dynamic option value of
all four types — unchanged, while selecting a different (or first) valid
index discards all current values and sets every option of the newly
selected model to its type default: 0 (encoding false) for bools, 0 for
ints, 0 for floats, the empty string for strings. -/
theorem selectModel_same_noop_diff_defaults (s : DLClientState) (idx : Nat)
    (m : Model) :
    (s.modelSelected = true → selectModel s s.chosenModel = s) ∧
    (s.serverModels.get? idx = some m →
      (s.modelSelected = true → s.chosenModel ≠ idx) →
      (selectModel s idx).dynamicBoolValues =
          List.replicate (countParams m ParamType.boolT) (0 : Int) ∧
      (selectModel s idx).dynamicIntValues =
          List.replicate (countParams m ParamType.intT) (0 : Int) ∧
      (selectModel s idx).dynamicFloatValues =
          List.replicate (countParams m ParamType.floatT) (0 : Rat) ∧
      (selectModel s idx).dynamicStringValues =
          List.replicate (countParams m ParamType.stringT) "") := by
  constructor
  · intro h
    simp [selectModel, h]
  · intro hget hdiff
    have hcond : ¬ (s.modelSelected ∧ s.chosenModel = idx) := by
      rintro ⟨h1, h2⟩
      exact hdiff h1 h2
    rw [List.get?_eq_getElem?] at hget
    simp [selectModel, hcond, hget, updateOptions, countParams, List.map_const']

/-- Witness for C2: a first selection of the demo model yields default
option values, and re-selecting the selected index is a no-op. -/
theorem selectModel_same_noop_diff_defaults_spot :
    demoState.serverModels.get? 0 = some demoModel ∧
    (selectModel demoState 0).dynamicFloatValues =
        List.replicate (countParams demoModel ParamType.floatT) (0 : Rat) ∧
    demoSelected.modelSelected = true ∧
    selectModel demoSelected demoSelected.chosenModel = demoSelected :=
  ⟨by decide,
    ((selectModel_same_noop_diff_defaults demoState 0 demoModel).2 (by decide)
      (by decide)).2.2.1,
    by decide,
    (selectModel_same_noop_diff_defaults demoSelected 0 demoModel).1 (by decide)⟩

/-- C4: when the supplied image count differs from the selected model's
declared input count, `runInference` fails with InputMismatchError,
performs no network operation, and returns the state completely
unchanged (connection, option values and cached result included). -/
theorem runInference_inputMismatch (s : DLClientState) (images : List Image)
    (net : ExchangeOutcome) (m : Model) (hm : selectedModel s = some m)
    (hlen : images.length ≠ m.numInputs) :
    runInference s images net = (.error DLError.inputMismatchError, s, 0) := by
  unfold runInference
  rw [hm]
  simp [hlen]

/-- Witness for C4: the demo model wants one input, zero are supplied. -/
theorem runInference_inputMismatch_spot :
    selectedModel demoSelected = some demoModel ∧
    ([] : List Image).length ≠ demoModel.numInputs ∧
    runInference demoSelected [] ExchangeOutcome.connFail =
      (.error DLError.inputMismatchError, demoSelected, 0) :=
  ⟨by decide, by decide,
    runInference_inputMismatch demoSelected [] ExchangeOutcome.connFail demoModel
      (by decide) (by decide)⟩

/-- C5: the cached model list after a `fetchModels` call is the fetched
list on success and exactly the previous list on any connection or decode
failure — a transient failure never erases the cached capability state. -/
theorem fetchModels_error_keeps_cache (s : DLClientState) (net : InfoOutcome) :
    (fetchModels s net).2.serverModels =
      match (fetchModels s net).1 with
      | .ok ms => ms
      | .error _ => s.serverModels := by
  cases net <;> rfl

/-- C6: the stored result raster after a `runInference` call is the newly
decoded raster exactly when the call succeeds, and the previous raster
unchanged on every failure (validation, connection, framing, decode, or
server-reported inference error) — callers never observe anything in
between. -/
theorem runInference_result_atomic (s : DLClientState) (images : List Image)
    (net : ExchangeOutcome) :
    (runInference s images net).2.1.result =
      match (runInference s images net).1 with
      | .ok img => img
      | .error _ => s.result := by
  unfold runInference
  cases hm : selectedModel s with
  | none => rfl
  | some m =>
    by_cases hlen : images.length ≠ m.numInputs
    · simp [hlen]
    · cases net <;> simp [hlen]

/-- C7: `ensureConnected` when already connected to the same host and port
returns true with the state untouched and zero socket operations; when not
short-circuited by an existing identical connection, an invalid host or
out-of-range port fails with a validation error and zero socket
operations, so no I/O is attempted on invalid inputs. -/
theorem ensureConnected_short_circuits (s : DLClientState) (host : String)
    (port : Int) (net : Bool) :
    (s.isConnected = true → s.host = host → s.port = port →
      ensureConnected s host port net = (.ok true, s, 0)) ∧
    ((s.isConnected = true ∧ s.host = host ∧ s.port = port → False) →
      (validHost host && validPort port) = false →
      (ensureConnected s host port net).1 = .error DLError.validationError ∧
      (ensureConnected s host port net).2.2 = 0) := by
  constructor
  · intro h1 h2 h3
    simp [ensureConnected, h1, h2, h3]
  · intro hns hv
    have hcond : ¬ (s.isConnected = true ∧ s.host = host ∧ s.port = port) := hns
    simp [ensureConnected, hcond, hv]

/-- Witness for C7: re-using an existing connection costs no socket
operation, and an empty host short-circuits with a validation error. -/
theorem ensureConnected_short_circuits_spot :
    (let c := { demoState with isConnected := true }
     c.isConnected = true ∧
     ensureConnected c "localhost" 55555 true = (.ok true, c, 0)) ∧
    ((validHost "" && validPort 55555) = false ∧
     (ensureConnected demoState "" 55555 true).1 = .error DLError.validationError ∧
     (ensureConnected demoState "" 55555 true).2.2 = 0) :=
  ⟨⟨by decide,
    (ensureConnected_short_circuits { demoState with isConnected := true }
      "localhost" 55555 true).1 (by decide) (by decide) (by decide)⟩,
   by decide,
   (ensureConnected_short_circuits demoState "" 55555 true).2
     (fun hc => by revert hc; decide) (by decide)⟩

/-- C3: every operation of the Dynamic Option Model — selecting a model
and editing a value of any of the four types — preserves the invariant
that each typed value vector has exactly as many entries as the selected
descriptor declares parameters of that type. -/
theorem optionCounts_invariant (s : DLClientState) (op : OptionOp)
    (h : optionCountsOk s = true) :
    optionCountsOk (applyOptionOp s op) = true := by
  cases op with
  | select idx =>
    show optionCountsOk (selectModel s idx) = true
    unfold selectModel
    split
    · exact h
    · cases hget : s.serverModels.get? idx with
      | none => exact h
      | some m =>
        rw [List.get?_eq_getElem?] at hget
        simp [optionCountsOk, selectedModel, updateOptions, hget, countParams]
  | setBool idx v =>
    show optionCountsOk (setDynamicBoolValue s idx v) = true
    have hsel : selectedModel (setDynamicBoolValue s idx v) = selectedModel s := rfl
    unfold optionCountsOk at h ⊢
    rw [hsel]
    cases hm : selectedModel s with
    | none => rfl
    | some m =>
      rw [hm] at h
      simpa [setDynamicBoolValue] using h
  | setInt idx v =>
    show optionCountsOk (setDynamicIntValue s idx v) = true
    have hsel : selectedModel (setDynamicIntValue s idx v) = selectedModel s := rfl
    unfold optionCountsOk at h ⊢
    rw [hsel]
    cases hm : selectedModel s with
    | none => rfl
    | some m =>
      rw [hm] at h
      simpa [setDynamicIntValue] using h
  | setFloat idx v =>
    show optionCountsOk (setDynamicFloatValue s idx v) = true
    have hsel : selectedModel (setDynamicFloatValue s idx v) = selectedModel s := rfl
    unfold optionCountsOk at h ⊢
    rw [hsel]
    cases hm : selectedModel s with
    | none => rfl
    | some m =>
      rw [hm] at h
      simpa [setDynamicFloatValue] using h
  | setString idx v =>
    show optionCountsOk (setDynamicStringValue s idx v) = true
    have hsel : selectedModel (setDynamicStringValue s idx v) = selectedModel s := rfl
    unfold optionCountsOk at h ⊢
    rw [hsel]
    cases hm : selectedModel s with
    | none => rfl
    | some m =>
      rw [hm] at h
      simpa [setDynamicStringValue] using h

/-- Witness for C3: the invariant holds after selecting the demo model and
is kept by a float edit. -/
theorem optionCounts_invariant_spot :
    optionCountsOk demoSelected = true ∧
    optionCountsOk (applyOptionOp demoSelected (OptionOp.setFloat 0 (1 : Rat))) = true :=
  ⟨by decide,
    optionCounts_invariant demoSelected (OptionOp.setFloat 0 (1 : Rat)) (by decide)⟩

/-- Once the first-time flag is cleared, further compute calls for the
unchanged frame leave the state alone, perform no exchange, and serve the
cached raster. -/
theorem engineCalls_cached (t : DLClientState) (images : List Image)
    (net : ExchangeOutcome) (k : Nat) (hf : t.firstTime = false) :
    engineCalls t images net k = (t, 0, List.replicate k t.result) := by
  induction k with
  | zero => simp [engineCalls]
  | succ k ih => simp [engineCalls, engineCall, hf, ih, List.replicate_succ]

/-- C9: N simultaneous compute calls for the same unchanged frame and
client state, serialized by the lock, perform exactly one network
request/response exchange in total, and all N callers observe the same
resulting raster. -/
theorem compute_single_exchange (s : DLClientState) (images : List Image)
    (img : Image) (m : Model) (n : Nat) (hm : selectedModel s = some m)
    (hlen : images.length = m.numInputs) (hfirst : s.firstTime = true)
    (hn : 1 ≤ n) :
    (engineCalls s images (ExchangeOutcome.ok img) n).2.1 = 1 ∧
    (engineCalls s images (ExchangeOutcome.ok img) n).2.2 = List.replicate n img := by
  obtain ⟨k, rfl⟩ : ∃ k, n = k + 1 := ⟨n - 1, by omega⟩
  have hstep : engineCall s images (ExchangeOutcome.ok img) =
      ({ s with result := img, isConnected := true, firstTime := false }, 1, img) := by
    unfold engineCall runInference
    rw [hm, hfirst]
    simp [hlen]
  have hrest := engineCalls_cached
    { s with result := img, isConnected := true, firstTime := false }
    images (ExchangeOutcome.ok img) k rfl
  constructor <;> simp [engineCalls, hstep, hrest, List.replicate_succ]

/-- Witness for C9: three serialized compute calls on the freshly selected
demo state cost one exchange and all observe the returned raster. -/
theorem compute_single_exchange_spot :
    selectedModel demoSelected = some demoModel ∧
    [demoImage].length = demoModel.numInputs ∧
    demoSelected.firstTime = true ∧
    1 ≤ 3 ∧
    (engineCalls demoSelected [demoImage] (ExchangeOutcome.ok demoImage) 3).2.1 = 1 ∧
    (engineCalls demoSelected [demoImage] (ExchangeOutcome.ok demoImage) 3).2.2 =
      List.replicate 3 demoImage :=
  ⟨by decide, by decide, by decide, by decide,
    (compute_single_exchange demoSelected [demoImage] demoImage demoModel 3
      (by decide) (by decide) (by decide) (by decide)).1,
    (compute_single_exchange demoSelected [demoImage] demoImage demoModel 3
      (by decide) (by decide) (by decide) (by decide)).2⟩

/-- C10: for each of the four option types the name vector and the value
vector of DLClient.h lines 59-66 have equal length, so every index below
the corresponding getNumOf count addresses both a stored name and a stored
value; and this parallel-vector invariant is preserved by every client
operation, including the rebuild of the options on model selection and the
network-facing calls. -/
theorem parallelVectors_invariant (s : DLClientState) (op : ClientOp)
    (h : parallelVectorsOk s = true) :
    parallelVectorsOk (applyClientOp s op) = true ∧
    (∀ i, i < getNumOfBools s →
      (getDynamicBoolName s i).isSome = true ∧
      (getDynamicBoolValue s i).isSome = true) ∧
    (∀ i, i < getNumOfInts s →
      (getDynamicIntName s i).isSome = true ∧
      (getDynamicIntValue s i).isSome = true) ∧
    (∀ i, i < getNumOfFloats s →
      (getDynamicFloatName s i).isSome = true ∧
      (getDynamicFloatValue s i).isSome = true) ∧
    (∀ i, i < getNumOfStrings s →
      (getDynamicStringName s i).isSome = true ∧
      (getDynamicStringValue s i).isSome = true) := by
  have hlens : ((s.dynamicBoolNames.length = s.dynamicBoolValues.length ∧
      s.dynamicIntNames.length = s.dynamicIntValues.length) ∧
      s.dynamicFloatNames.length = s.dynamicFloatValues.length) ∧
      s.dynamicStringNames.length = s.dynamicStringValues.length := by
    simpa [parallelVectorsOk] using h
  obtain ⟨⟨⟨hbl, hil⟩, hfl⟩, hsl⟩ := hlens
  refine ⟨?_, ?_, ?_, ?_, ?_⟩
  · cases op with
    | opt o =>
      cases o with
      | select idx =>
        show parallelVectorsOk (selectModel s idx) = true
        unfold selectModel
        split
        · exact h
        · cases hget : s.serverModels.get? idx with
          | none => exact h
          | some m => simp [parallelVectorsOk, updateOptions]
      | setBool idx v =>
        show parallelVectorsOk (setDynamicBoolValue s idx v) = true
        simpa [parallelVectorsOk, setDynamicBoolValue] using h
      | setInt idx v =>
        show parallelVectorsOk (setDynamicIntValue s idx v) = true
        simpa [parallelVectorsOk, setDynamicIntValue] using h
      | setFloat idx v =>
        show parallelVectorsOk (setDynamicFloatValue s idx v) = true
        simpa [parallelVectorsOk, setDynamicFloatValue] using h
      | setString idx v =>
        show parallelVectorsOk (setDynamicStringValue s idx v) = true
        simpa [parallelVectorsOk, setDynamicStringValue] using h
    | fetch net => cases net <;> exact h
    | infer images net =>
      show parallelVectorsOk (runInference s images net).2.1 = true
      unfold runInference
      cases hm : selectedModel s with
      | none => exact h
      | some m =>
        by_cases hlen2 : images.length ≠ m.numInputs
        · simp only [if_pos hlen2]
          exact h
        · simp only [if_neg hlen2]
          cases net <;> exact h
    | connect host port net =>
      show parallelVectorsOk (ensureConnected s host port net).2.1 = true
      unfold ensureConnected
      split
      · exact h
      · split
        · split <;> exact h
        · exact h
    | compute images net =>
      show parallelVectorsOk (engineCall s images net).1 = true
      unfold engineCall runInference
      split
      · cases hm : selectedModel s with
        | none => exact h
        | some m =>
          by_cases hlen2 : images.length ≠ m.numInputs
          · simp only [if_pos hlen2]
            exact h
          · simp only [if_neg hlen2]
            cases net <;> exact h
      · exact h
  · intro i hi
    have hv : i < s.dynamicBoolValues.length := hi
    have hn : i < s.dynamicBoolNames.length := by
      omega
    constructor
    · show (s.dynamicBoolNames.get? i).isSome = true
      rw [List.get?_eq_get hn]
      rfl
    · show (s.dynamicBoolValues.get? i).isSome = true
      rw [List.get?_eq_get hv]
      rfl
  · intro i hi
    have hv : i < s.dynamicIntValues.length := hi
    have hn : i < s.dynamicIntNames.length := by
      omega
    constructor
    · show (s.dynamicIntNames.get? i).isSome = true
      rw [List.get?_eq_get hn]
      rfl
    · show (s.dynamicIntValues.get? i).isSome = true
      rw [List.get?_eq_get hv]
      rfl
  · intro i hi
    have hv : i < s.dynamicFloatValues.length := hi
    have hn : i < s.dynamicFloatNames.length := by
      omega
    constructor
    · show (s.dynamicFloatNames.get? i).isSome = true
      rw [List.get?_eq_get hn]
      rfl
    · show (s.dynamicFloatValues.get? i).isSome = true
      rw [List.get?_eq_get hv]
      rfl
  · intro i hi
    have hv : i < s.dynamicStringValues.length := hi
    have hn : i < s.dynamicStringNames.length := by
      omega
    constructor
    · show (s.dynamicStringNames.get? i).isSome = true
      rw [List.get?_eq_get hn]
      rfl
    · show (s.dynamicStringValues.get? i).isSome = true
      rw [List.get?_eq_get hv]
      rfl

/-- Witness for C10: the parallel-vector invariant holds on the freshly
selected demo state and is kept by a model re-selection. -/
theorem parallelVectors_invariant_spot :
    parallelVectorsOk demoSelected = true ∧
    parallelVectorsOk (applyClientOp demoSelected (ClientOp.opt (OptionOp.select 0))) = true :=
  ⟨by decide,
    (parallelVectors_invariant demoSelected (ClientOp.opt (OptionOp.select 0))
      (by decide)).1⟩

end DLClient
